import Mathlib

/-!
# WinXInputFeeder: raw-input normaliser, device registry and message pump

A shallow embedding of `src/WinXInputFeeder/app.cpp`:

* `MainWindowWndProc` (window procedure, lines 35-124),
* `App::OnRawInput` (lines 317-384),
* `App::FindIdev`, `App::OnIdevConnect`, `App::OnIdevDisconnect` (lines 386-414),
* `AppMain` (message pump, lines 442-477).

Calls into the mapping engine (`feeder->HandleKeyPress`, `feeder->HandleMouseMovement`)
are recorded as an output list of `SinkEvent`s.  Win32 services the code relies on
(`MapVirtualKeyW`, the device metadata query, the ImGui window-procedure hook, the
thread message queue) are parameters of the model.
-/

namespace WinXInputFeeder

/-! ## Win32 constants (from the Windows SDK headers) -/

/-- Device handles are opaque machine words. -/
abbrev HANDLE := Nat

abbrev VK_LBUTTON : Nat := 0x01
abbrev VK_RBUTTON : Nat := 0x02
abbrev VK_MBUTTON : Nat := 0x04
abbrev VK_XBUTTON1 : Nat := 0x05
abbrev VK_XBUTTON2 : Nat := 0x06
abbrev VK_SHIFT : Nat := 0x10
abbrev VK_CONTROL : Nat := 0x11
abbrev VK_MENU : Nat := 0x12
abbrev VK_LSHIFT : Nat := 0xA0
abbrev VK_RSHIFT : Nat := 0xA1
abbrev VK_LCONTROL : Nat := 0xA2
abbrev VK_RCONTROL : Nat := 0xA3
abbrev VK_LMENU : Nat := 0xA4
abbrev VK_RMENU : Nat := 0xA5

abbrev RI_MOUSE_LEFT_BUTTON_DOWN : Nat := 0x0001
abbrev RI_MOUSE_LEFT_BUTTON_UP : Nat := 0x0002
abbrev RI_MOUSE_RIGHT_BUTTON_DOWN : Nat := 0x0004
abbrev RI_MOUSE_RIGHT_BUTTON_UP : Nat := 0x0008
abbrev RI_MOUSE_MIDDLE_BUTTON_DOWN : Nat := 0x0010
abbrev RI_MOUSE_MIDDLE_BUTTON_UP : Nat := 0x0020
abbrev RI_MOUSE_BUTTON_4_DOWN : Nat := 0x0040
abbrev RI_MOUSE_BUTTON_4_UP : Nat := 0x0080
abbrev RI_MOUSE_BUTTON_5_DOWN : Nat := 0x0100
abbrev RI_MOUSE_BUTTON_5_UP : Nat := 0x0200

abbrev MOUSE_MOVE_ABSOLUTE : Nat := 0x01
abbrev RI_KEY_BREAK : Nat := 0x01
abbrev RI_KEY_E0 : Nat := 0x02
abbrev MAPVK_VSC_TO_VK_EX : Nat := 3

abbrev SIZE_RESTORED : Nat := 0
abbrev SIZE_MINIMIZED : Nat := 1
abbrev SIZE_MAXIMIZED : Nat := 2

abbrev GIDC_ARRIVAL : Nat := 1
abbrev GIDC_REMOVAL : Nat := 2

/-! ## Raw input records -/

/-- The fields of `RAWMOUSE` that `App::OnRawInput` reads. -/
structure RAWMOUSE where
  usFlags : Nat
  usButtonFlags : Nat
  lLastX : Int
  lLastY : Int
deriving DecidableEq

/-- The fields of `RAWKEYBOARD` that `App::OnRawInput` reads. -/
structure RAWKEYBOARD where
  MakeCode : Nat
  Flags : Nat
  VKey : Nat
deriving DecidableEq

/-- The payload of a `RAWINPUT`, tagged by `header.dwType`
(`RIM_TYPEMOUSE`, `RIM_TYPEKEYBOARD`, `RIM_TYPEHID`). -/
inductive RawData where
  | mouse (m : RAWMOUSE)
  | keyboard (k : RAWKEYBOARD)
  | hid
deriving DecidableEq

/-- A `RAWINPUT`: `header.hDevice` and the typed payload. -/
structure RAWINPUT where
  hDevice : HANDLE
  data : RawData
deriving DecidableEq

/-- Calls made on the mapping engine (`feeder->...`), in call order.  The device
argument is recorded by its handle. -/
inductive SinkEvent where
  | HandleKeyPress (hDevice : HANDLE) (vk : Nat) (pressed : Bool)
  | HandleMouseMovement (hDevice : HANDLE) (dx dy : Int)
deriving DecidableEq

/-- Window messages the pump and the window procedure distinguish.  `WM_INPUT`
carries the record `GetRawInputData` delivers (`none` when that call fails);
`other` stands for every remaining message (`WM_NCCREATE`, `WM_KEYDOWN`, `WM_DESTROY`,
`WM_DPICHANGED` and those left to `DefWindowProcW`), none of which touches the state
modelled here. -/
inductive Msg where
  | WM_QUIT
  | WM_TIMER
  | WM_SIZE (wParam : Nat)
  | WM_INPUT (ri : Option RAWINPUT)
  | WM_INPUT_DEVICE_CHANGE (wParam : Nat) (hDevice : HANDLE)
  | other (uMsg : Nat)
deriving DecidableEq

/-! ## Device records and the registry -/

/-- One `IdevDevice`: handle, name, raw-input device type and the per-key bitset. -/
structure IdevDevice where
  hDevice : HANDLE
  nameUtf8 : String
  dwType : Nat
  keyStates : Nat → Bool

/-- The build configuration and the Win32 services the code calls. -/
structure Env where
  /-- Whether `NDEBUG` is defined, so that `assert` expands to nothing. -/
  NDEBUG : Bool
  /-- Whether the `_DEBUG` macro is non-zero, so that `#if _DEBUG` blocks are compiled. -/
  _DEBUG : Bool
  /-- The Win32 function `MapVirtualKeyW(uCode, uMapType)`. -/
  MapVirtualKeyW : Nat → Nat → Nat
  /-- Device name and type reported by the operating system for a handle. -/
  deviceInfo : HANDLE → String × Nat
  /-- Whether `ImGui_ImplWin32_WndProcHandler` returns non-zero for the message. -/
  ImGui_ImplWin32_WndProcHandler : Msg → Bool

/-- Modelled from the spec: `IdevDevice::FromHANDLE` lives in `inputdevice.cpp`, which
is not among the sources.  Per the data model it builds the record of a newly seen
device from the metadata the operating system reports, with every key released. -/
def IdevDevice.FromHANDLE (env : Env) (hDevice : HANDLE) : IdevDevice :=
  { hDevice := hDevice
    nameUtf8 := (env.deviceInfo hDevice).1
    dwType := (env.deviceInfo hDevice).2
    keyStates := fun _ => false }

/-- The bitset after `keyStates.set(pos, val)`. -/
def bitset_set (bits : Nat → Bool) (pos : Nat) (val : Bool) : Nat → Bool :=
  fun i => if i = pos then val else bits i

/-- The lookup `devices.find(hDevice)`: the record stored under the handle, if any. -/
def devices_find : List (HANDLE × IdevDevice) → HANDLE → Option IdevDevice
  | [], _ => none
  | (k, v) :: rest, h => if k = h then some v else devices_find rest h

/-- The call `devices.try_emplace(hDevice, value)`: inserts only when the key is absent; returns
the map, the element the returned iterator points to, and the success flag. -/
def devices_try_emplace (m : List (HANDLE × IdevDevice)) (h : HANDLE) (v : IdevDevice) :
    List (HANDLE × IdevDevice) × IdevDevice × Bool :=
  match devices_find m h with
  | some existing => (m, existing, false)
  | none => (m ++ [(h, v)], v, true)

/-- The call `devices.erase(hDevice)`: removes the elements whose key is the handle. -/
def devices_erase (m : List (HANDLE × IdevDevice)) (h : HANDLE) : List (HANDLE × IdevDevice) :=
  m.filter (fun e => decide (e.1 ≠ h))

/-- A write through the reference `find`/`try_emplace` returned: updates in place the
element stored under the handle. -/
def devices_modify : List (HANDLE × IdevDevice) → HANDLE → (IdevDevice → IdevDevice) →
    List (HANDLE × IdevDevice)
  | [], _, _ => []
  | (k, v) :: rest, h, f =>
    if k = h then (k, f v) :: rest else (k, v) :: devices_modify rest h f

/-- The part of `App` the verified functions read and write. -/
structure App where
  devices : List (HANDLE × IdevDevice)
  shownWindowCount : Int

/-- The method `App::OnIdevConnect` (lines 394-401).  `none` is the failed `assert(success)`. -/
def App.OnIdevConnect (env : Env) (app : App) (hDevice : HANDLE) : Option (App × IdevDevice) :=
  match devices_try_emplace app.devices hDevice (IdevDevice.FromHANDLE env hDevice) with
  | (devices, idev, success) =>
    if !env.NDEBUG && !success then none
    else some ({ app with devices := devices }, idev)

/-- The method `App::FindIdev` (lines 386-392). -/
def App.FindIdev (env : Env) (app : App) (hDevice : HANDLE) : Option (App × IdevDevice) :=
  match devices_find app.devices hDevice with
  | some idev => some (app, idev)
  | none => App.OnIdevConnect env app hDevice

/-- The method `App::OnIdevDisconnect` (lines 403-414); the early return sits inside
`#if _DEBUG`. -/
def App.OnIdevDisconnect (env : Env) (app : App) (hDevice : HANDLE) : App :=
  if env._DEBUG && (devices_find app.devices hDevice).isNone then app
  else { app with devices := devices_erase app.devices hDevice }

/-- The `switch (kbd.VKey)` of lines 354-370; the result is stored in a `BYTE`. -/
def newVKey (env : Env) (kbd : RAWKEYBOARD) : Nat :=
  let extended : Bool := decide (kbd.Flags &&& RI_KEY_E0 ≠ 0)
  (if kbd.VKey = VK_SHIFT then env.MapVirtualKeyW kbd.MakeCode MAPVK_VSC_TO_VK_EX
   else if kbd.VKey = VK_CONTROL then (if extended then VK_RCONTROL else VK_LCONTROL)
   else if kbd.VKey = VK_MENU then (if extended then VK_RMENU else VK_LMENU)
   else kbd.VKey) % 256

/-- The ten `if (bf & ...) feeder->HandleKeyPress(...)` statements of lines 324-333. -/
def mouseButtonCalls (hDevice : HANDLE) (bf : Nat) : List SinkEvent :=
  (if bf &&& RI_MOUSE_LEFT_BUTTON_DOWN ≠ 0 then [SinkEvent.HandleKeyPress hDevice VK_LBUTTON true] else []) ++
  (if bf &&& RI_MOUSE_LEFT_BUTTON_UP ≠ 0 then [SinkEvent.HandleKeyPress hDevice VK_LBUTTON false] else []) ++
  (if bf &&& RI_MOUSE_RIGHT_BUTTON_DOWN ≠ 0 then [SinkEvent.HandleKeyPress hDevice VK_RBUTTON true] else []) ++
  (if bf &&& RI_MOUSE_RIGHT_BUTTON_UP ≠ 0 then [SinkEvent.HandleKeyPress hDevice VK_RBUTTON false] else []) ++
  (if bf &&& RI_MOUSE_MIDDLE_BUTTON_DOWN ≠ 0 then [SinkEvent.HandleKeyPress hDevice VK_MBUTTON true] else []) ++
  (if bf &&& RI_MOUSE_MIDDLE_BUTTON_UP ≠ 0 then [SinkEvent.HandleKeyPress hDevice VK_MBUTTON false] else []) ++
  (if bf &&& RI_MOUSE_BUTTON_4_DOWN ≠ 0 then [SinkEvent.HandleKeyPress hDevice VK_XBUTTON1 true] else []) ++
  (if bf &&& RI_MOUSE_BUTTON_4_UP ≠ 0 then [SinkEvent.HandleKeyPress hDevice VK_XBUTTON1 false] else []) ++
  (if bf &&& RI_MOUSE_BUTTON_5_DOWN ≠ 0 then [SinkEvent.HandleKeyPress hDevice VK_XBUTTON2 true] else []) ++
  (if bf &&& RI_MOUSE_BUTTON_5_UP ≠ 0 then [SinkEvent.HandleKeyPress hDevice VK_XBUTTON2 false] else [])

/-- The method `App::OnRawInput` (lines 317-384): the state after the call and the calls made on
the mapping engine.  `none` is a failed assertion inside `FindIdev`. -/
def App.OnRawInput (env : Env) (app : App) (ri : RAWINPUT) : Option (App × List SinkEvent) :=
  match ri.data with
  | RawData.mouse mouse =>
    match App.FindIdev env app ri.hDevice with
    | none => none
    | some (app1, _) =>
      let buttons := mouseButtonCalls ri.hDevice mouse.usButtonFlags
      if mouse.usFlags &&& MOUSE_MOVE_ABSOLUTE ≠ 0 then some (app1, buttons)
      else some (app1,
        buttons ++ [SinkEvent.HandleMouseMovement ri.hDevice mouse.lLastX mouse.lLastY])
  | RawData.keyboard kbd =>
    match App.FindIdev env app ri.hDevice with
    | none => none
    | some (app1, idev) =>
      if kbd.VKey = 0xFF then some (app1, [])
      else if kbd.VKey > 0xFF then some (app1, [])
      else
        let prevPress := idev.keyStates (newVKey env kbd)
        let press : Bool := !decide (kbd.Flags &&& RI_KEY_BREAK ≠ 0)
        if prevPress = press then some (app1, [])
        else
          some ({ app1 with
                  devices := devices_modify app1.devices ri.hDevice
                    (fun d => { d with keyStates := bitset_set d.keyStates (newVKey env kbd) press }) },
                [SinkEvent.HandleKeyPress ri.hDevice (newVKey env kbd) press])
  | RawData.hid => some (app, [])

/-- The window procedure `MainWindowWndProc` (lines 35-124) on the model state.  Messages whose handling
touches only the user interface leave the state unchanged.  `none` is a failed
assertion in a callee. -/
def MainWindowWndProc (env : Env) (app : App) (msg : Msg) : Option (App × List SinkEvent) :=
  if env.ImGui_ImplWin32_WndProcHandler msg then some (app, [])
  else
    match msg with
    | Msg.WM_SIZE wParam =>
      if wParam = SIZE_MINIMIZED then
        some ({ app with shownWindowCount := app.shownWindowCount - 1 }, [])
      else
        some ({ app with shownWindowCount := app.shownWindowCount + 1 }, [])
    | Msg.WM_INPUT none => some (app, [])
    | Msg.WM_INPUT (some ri) => App.OnRawInput env app ri
    | Msg.WM_INPUT_DEVICE_CHANGE wParam hDevice =>
      if wParam = GIDC_ARRIVAL then
        (App.OnIdevConnect env app hDevice).map (fun r => (r.1, []))
      else if wParam = GIDC_REMOVAL then
        some (App.OnIdevDisconnect env app hDevice, [])
      else some (app, [])
    | _ => some (app, [])

/-! ## The message pump

The thread message queue is an oracle `List (Option Msg)`: the successive answers of
the queue.  `some m` is a retrieved message; `none` says the queue is empty at that
moment, which makes `PeekMessageW` return zero and makes `GetMessageW` keep waiting.
When the list is exhausted no message ever arrives again. -/

/-- The return value of `GetMessageW` is zero exactly for `WM_QUIT`. -/
def GetMessageW_nonzero (msg : Msg) : Bool :=
  decide (msg ≠ Msg.WM_QUIT)

/-- What the pump does, in order; each step records `shownWindowCount` right after it. -/
inductive PumpStep where
  | GetMessageW (msg : Msg) (shownWindowCount : Int)
  | PeekMessageW (msg : Msg) (shownWindowCount : Int)
  | MainRenderFrame (shownWindowCount : Int)
deriving DecidableEq

/-- How an inner `while` loop of `AppMain` is left. -/
inductive LoopExit where
  | fallThrough
  | gotoExit
  | blocked
  | assertFailed
deriving DecidableEq

/-- State, remaining queue answers and steps after an inner loop. -/
structure LoopResult where
  exit : LoopExit
  app : App
  rest : List (Option Msg)
  trace : List PumpStep

/-- The blocking pump, lines 450-458:
`while (s.shownWindowCount == 0 && GetMessageW(&msg, ...)) { ... }`. -/
def blockingLoop (env : Env) : App → List (Option Msg) → LoopResult
  | s, [] =>
    if s.shownWindowCount ≠ 0 then ⟨LoopExit.fallThrough, s, [], []⟩
    else ⟨LoopExit.blocked, s, [], []⟩
  | s, x :: rest =>
    if s.shownWindowCount ≠ 0 then ⟨LoopExit.fallThrough, s, x :: rest, []⟩
    else
      match x with
      | none => blockingLoop env s rest
      | some msg =>
        if GetMessageW_nonzero msg = false then
          ⟨LoopExit.fallThrough, s, rest, [PumpStep.GetMessageW msg s.shownWindowCount]⟩
        else
          match MainWindowWndProc env s msg with
          | none =>
            ⟨LoopExit.assertFailed, s, rest, [PumpStep.GetMessageW msg s.shownWindowCount]⟩
          | some (s1, _) =>
            if msg = Msg.WM_QUIT then
              ⟨LoopExit.gotoExit, s1, rest, [PumpStep.GetMessageW msg s1.shownWindowCount]⟩
            else
              let r := blockingLoop env s1 rest
              { r with trace := PumpStep.GetMessageW msg s1.shownWindowCount :: r.trace }

/-- The polling pump, lines 461-471:
`while (PeekMessageW(&msg, ..., PM_REMOVE)) { ... }`. -/
def pollingLoop (env : Env) : App → List (Option Msg) → LoopResult
  | s, [] => ⟨LoopExit.fallThrough, s, [], []⟩
  | s, none :: rest => ⟨LoopExit.fallThrough, s, rest, []⟩
  | s, some msg :: rest =>
    match MainWindowWndProc env s msg with
    | none =>
      ⟨LoopExit.assertFailed, s, rest, [PumpStep.PeekMessageW msg s.shownWindowCount]⟩
    | some (s1, _) =>
      if msg = Msg.WM_QUIT then
        ⟨LoopExit.gotoExit, s1, rest, [PumpStep.PeekMessageW msg s1.shownWindowCount]⟩
      else
        let r := pollingLoop env s1 rest
        { r with trace := PumpStep.PeekMessageW msg s1.shownWindowCount :: r.trace }

/-- How a run of `AppMain` ends. -/
inductive PumpExit where
  | returned
  | blocked
  | assertFailed
  | outOfFuel
deriving DecidableEq

/-- The steps of a run of `AppMain` and the way it ended. -/
structure PumpRun where
  trace : List PumpStep
  exit : PumpExit
deriving DecidableEq

/-- The function `AppMain` (lines 442-477) from the state `s` the constructor left, against the
queue answers `queue`; `fuel` bounds the iterations of the outer `while (true)`. -/
def AppMain (env : Env) : Nat → App → List (Option Msg) → PumpRun
  | 0, _, _ => ⟨[], PumpExit.outOfFuel⟩
  | fuel + 1, s, queue =>
    let b := blockingLoop env s queue
    match b.exit with
    | LoopExit.gotoExit => ⟨b.trace, PumpExit.returned⟩
    | LoopExit.blocked => ⟨b.trace, PumpExit.blocked⟩
    | LoopExit.assertFailed => ⟨b.trace, PumpExit.assertFailed⟩
    | LoopExit.fallThrough =>
      let p := pollingLoop env b.app b.rest
      match p.exit with
      | LoopExit.gotoExit => ⟨b.trace ++ p.trace, PumpExit.returned⟩
      | LoopExit.blocked => ⟨b.trace ++ p.trace, PumpExit.blocked⟩
      | LoopExit.assertFailed => ⟨b.trace ++ p.trace, PumpExit.assertFailed⟩
      | LoopExit.fallThrough =>
        let r := AppMain env fuel p.app p.rest
        ⟨b.trace ++ p.trace ++ PumpStep.MainRenderFrame p.app.shownWindowCount :: r.trace, r.exit⟩

/-- A sample `Env`: assertions enabled, US scan codes for the two shift keys. -/
def sampleEnv : Env :=
  { NDEBUG := false
    _DEBUG := true
    MapVirtualKeyW := fun code _ => if code = 0x2A then VK_LSHIFT else if code = 0x36 then VK_RSHIFT else 0
    deviceInfo := fun _ => ("", 0)
    ImGui_ImplWin32_WndProcHandler := fun _ => false }

/-! ## Observations used by the statements -/

/-- The event is a `HandleKeyPress` call. -/
def SinkEvent.isKeyPress : SinkEvent → Bool
  | SinkEvent.HandleKeyPress _ _ _ => true
  | SinkEvent.HandleMouseMovement _ _ _ => false

/-- The event is a `HandleMouseMovement` call. -/
def SinkEvent.isMouseMovement : SinkEvent → Bool
  | SinkEvent.HandleKeyPress _ _ _ => false
  | SinkEvent.HandleMouseMovement _ _ _ => true

/-- The ten sub-flags of `usButtonFlags` with the button code and pressed state each
one stands for: down then up for left, right, middle, button 4 and button 5. -/
def mouseSubFlags : List (Nat × Nat × Bool) :=
  [ (RI_MOUSE_LEFT_BUTTON_DOWN, VK_LBUTTON, true), (RI_MOUSE_LEFT_BUTTON_UP, VK_LBUTTON, false),
    (RI_MOUSE_RIGHT_BUTTON_DOWN, VK_RBUTTON, true), (RI_MOUSE_RIGHT_BUTTON_UP, VK_RBUTTON, false),
    (RI_MOUSE_MIDDLE_BUTTON_DOWN, VK_MBUTTON, true), (RI_MOUSE_MIDDLE_BUTTON_UP, VK_MBUTTON, false),
    (RI_MOUSE_BUTTON_4_DOWN, VK_XBUTTON1, true), (RI_MOUSE_BUTTON_4_UP, VK_XBUTTON1, false),
    (RI_MOUSE_BUTTON_5_DOWN, VK_XBUTTON2, true), (RI_MOUSE_BUTTON_5_UP, VK_XBUTTON2, false) ]

/-- The sub-flags of the table that are set in `bf`. -/
def setSubFlags (bf : Nat) : List (Nat × Nat × Bool) :=
  mouseSubFlags.filter (fun e => decide (bf &&& e.1 ≠ 0))

/-- The stored state `App::OnRawInput` reads for key `k` of device `d`: the bit of the
record of `d`, and released when `d` has no record yet (`FindIdev` then makes one). -/
def keyStateOf (app : App) (d : HANDLE) (k : Nat) : Bool :=
  match devices_find app.devices d with
  | some idev => idev.keyStates k
  | none => false

/-- The pressed state a keyboard payload reports: pressed iff `RI_KEY_BREAK` is absent. -/
def pressedOf (kbd : RAWKEYBOARD) : Bool :=
  decide (kbd.Flags &&& RI_KEY_BREAK = 0)

/-- The event is a `HandleKeyPress` call for key `k` of device `d`. -/
def SinkEvent.isKeyPressFor (d : HANDLE) (k : Nat) : SinkEvent → Bool
  | SinkEvent.HandleKeyPress d1 k1 _ => decide (d1 = d ∧ k1 = k)
  | SinkEvent.HandleMouseMovement _ _ _ => false

/-- Number of `HandleKeyPress` calls for key `k` of device `d`. -/
def keyPressCount (d : HANDLE) (k : Nat) (evs : List SinkEvent) : Nat :=
  (evs.filter (SinkEvent.isKeyPressFor d k)).length

/-- Number of true transitions in a sequence of reported pressed states: the entries
that differ from the entry before them (from `prev` for the first). -/
def transitions : Bool → List Bool → Nat
  | _, [] => 0
  | prev, b :: bs => (if b ≠ prev then 1 else 0) + transitions b bs

/-- The pressed states reported, in order, by the payloads of device `d` whose
effective key is `k`. -/
def payloadsFor (env : Env) (d : HANDLE) (k : Nat) (kbds : List (HANDLE × RAWKEYBOARD)) :
    List Bool :=
  (kbds.filter (fun p => decide (p.1 = d ∧ newVKey env p.2 = k))).map (fun p => pressedOf p.2)

/-- Successive `WM_INPUT` deliveries: `App::OnRawInput` on each record in turn, the
calls on the mapping engine concatenated. -/
def OnRawInputSeq (env : Env) : App → List RAWINPUT → Option (App × List SinkEvent)
  | app, [] => some (app, [])
  | app, ri :: rest =>
    match App.OnRawInput env app ri with
    | none => none
    | some (app1, evs) =>
      match OnRawInputSeq env app1 rest with
      | none => none
      | some (app2, evs2) => some (app2, evs ++ evs2)

/-- The keyboard records of a list of (device, payload) pairs. -/
def keyboardInputs (kbds : List (HANDLE × RAWKEYBOARD)) : List RAWINPUT :=
  kbds.map (fun p => ⟨p.1, RawData.keyboard p.2⟩)

/-- Successive `DispatchMessageW` deliveries to `MainWindowWndProc`; the state after
the last one (`none` when an assertion failed on the way). -/
def WndProcSeq (env : Env) : App → List Msg → Option App
  | app, [] => some app
  | app, msg :: rest =>
    match MainWindowWndProc env app msg with
    | none => none
    | some (app1, _) => WndProcSeq env app1 rest

/-- The `shownWindowCount` a pump step records. -/
def PumpStep.count : PumpStep → Int
  | PumpStep.GetMessageW _ c => c
  | PumpStep.PeekMessageW _ c => c
  | PumpStep.MainRenderFrame c => c

/-- The step is a render pass. -/
def PumpStep.isRender : PumpStep → Bool
  | PumpStep.MainRenderFrame _ => true
  | _ => false

/-- Render passes allowed while the count stays zero: `RendersWithin b t` says that the
leading zero-count stretch of `t` has at most `b` render passes and every later one at
most one. -/
def RendersWithin : Nat → List PumpStep → Prop
  | _, [] => True
  | b, x :: t =>
    if x.count ≠ 0 then RendersWithin 1 t
    else if x.isRender = true then 0 < b ∧ RendersWithin (b - 1) t
    else RendersWithin b t

/-- A key held down: press of 0x41, three repeats, release, on keyboard 10. -/
def repeatScenario : List (HANDLE × RAWKEYBOARD) :=
  [(10, ⟨0x1E, 0, 0x41⟩), (10, ⟨0x1E, 0, 0x41⟩), (10, ⟨0x1E, 0, 0x41⟩), (10, ⟨0x1E, 0, 0x41⟩),
   (10, ⟨0x1E, RI_KEY_BREAK, 0x41⟩)]

/-- A queue in which the window is minimized, a timer fires while it is hidden, and
the window is then restored. -/
def hiddenQueue : List (Option Msg) :=
  [some (Msg.WM_SIZE SIZE_MINIMIZED), none, some Msg.WM_TIMER, some (Msg.WM_SIZE SIZE_RESTORED),
   none]

/-! ## Lemmas on the registry -/

theorem FindIdev_eq (env : Env) (app : App) (h : HANDLE) :
    App.FindIdev env app h =
      some (match devices_find app.devices h with
            | some idev => (app, idev)
            | none => ({ app with devices := app.devices ++ [(h, IdevDevice.FromHANDLE env h)] },
                       IdevDevice.FromHANDLE env h)) := by
  unfold App.FindIdev
  cases hf : devices_find app.devices h with
  | some idev => rfl
  | none => simp [App.OnIdevConnect, devices_try_emplace, hf]

theorem devices_find_erase_self (m : List (HANDLE × IdevDevice)) (h : HANDLE) :
    devices_find (devices_erase m h) h = none := by
  induction m with
  | nil => rfl
  | cons e t ih =>
    obtain ⟨k, v⟩ := e
    by_cases hk : k = h
    · simpa [devices_erase, List.filter_cons, hk] using ih
    · simpa [devices_erase, List.filter_cons, hk, devices_find] using ih

theorem devices_find_erase_ne (m : List (HANDLE × IdevDevice)) (h h1 : HANDLE) (hne : h1 ≠ h) :
    devices_find (devices_erase m h) h1 = devices_find m h1 := by
  induction m with
  | nil => rfl
  | cons e t ih =>
    obtain ⟨k, v⟩ := e
    simp only [devices_erase] at ih
    by_cases hk : k = h
    · subst hk
      simpa [devices_erase, List.filter_cons, devices_find, Ne.symm hne] using ih
    · by_cases hk1 : k = h1
      · subst hk1
        simp [devices_erase, List.filter_cons, hk, devices_find]
      · simpa [devices_erase, List.filter_cons, hk, devices_find, hk1] using ih

theorem devices_erase_absent (m : List (HANDLE × IdevDevice)) (h : HANDLE)
    (habs : devices_find m h = none) : devices_erase m h = m := by
  induction m with
  | nil => rfl
  | cons e t ih =>
    obtain ⟨k, v⟩ := e
    by_cases hk : k = h
    · simp [devices_find, hk] at habs
    · simp only [devices_find, hk, if_false] at habs
      have := ih habs
      simp only [devices_erase] at this
      simp only [devices_erase, List.filter_cons, ne_eq, hk, not_false_eq_true, decide_True,
        if_true]
      rw [show (fun e : HANDLE × IdevDevice => decide (¬ e.1 = h)) = fun e => decide (e.1 ≠ h)
        from rfl, this]

theorem devices_find_append_some (m n : List (HANDLE × IdevDevice)) (h : HANDLE) (r : IdevDevice)
    (hr : devices_find m h = some r) : devices_find (m ++ n) h = some r := by
  induction m with
  | nil => simp [devices_find] at hr
  | cons e t ih =>
    obtain ⟨k, v⟩ := e
    by_cases hk : k = h
    · simpa [devices_find, hk] using hr
    · simp only [devices_find, hk, if_false] at hr
      simpa [devices_find, hk] using ih hr

theorem devices_find_append_none (m n : List (HANDLE × IdevDevice)) (h : HANDLE)
    (hr : devices_find m h = none) : devices_find (m ++ n) h = devices_find n h := by
  induction m with
  | nil => rfl
  | cons e t ih =>
    obtain ⟨k, v⟩ := e
    by_cases hk : k = h
    · simp [devices_find, hk] at hr
    · simp only [devices_find, hk, if_false] at hr
      simpa [devices_find, hk] using ih hr

theorem devices_find_modify_self (m : List (HANDLE × IdevDevice)) (h : HANDLE)
    (f : IdevDevice → IdevDevice) :
    devices_find (devices_modify m h f) h = (devices_find m h).map f := by
  induction m with
  | nil => rfl
  | cons e t ih =>
    obtain ⟨k, v⟩ := e
    by_cases hk : k = h
    · simp [devices_modify, devices_find, hk]
    · simpa [devices_modify, devices_find, hk] using ih

theorem devices_find_modify_ne (m : List (HANDLE × IdevDevice)) (h h1 : HANDLE)
    (f : IdevDevice → IdevDevice) (hne : h1 ≠ h) :
    devices_find (devices_modify m h f) h1 = devices_find m h1 := by
  induction m with
  | nil => rfl
  | cons e t ih =>
    obtain ⟨k, v⟩ := e
    by_cases hk : k = h
    · subst hk
      simp [devices_modify, devices_find, Ne.symm hne]
    · by_cases hk1 : k = h1
      · subst hk1
        simp [devices_modify, devices_find, hk]
      · simpa [devices_modify, devices_find, hk, hk1] using ih

theorem filter_map_eq_flatMap {α β : Type} (P : α → Prop) [DecidablePred P] (f : α → β)
    (l : List α) :
    (l.filter (fun e => decide (P e))).map f = l.flatMap (fun e => if P e then [f e] else []) := by
  induction l with
  | nil => rfl
  | cons a t ih =>
    by_cases hp : P a
    · simp [List.filter_cons, hp, ih]
    · simp [List.filter_cons, hp, ih]

theorem mouseButtonCalls_eq (h : HANDLE) (bf : Nat) :
    mouseButtonCalls h bf =
      (setSubFlags bf).map (fun e => SinkEvent.HandleKeyPress h e.2.1 e.2.2) := by
  unfold setSubFlags
  rw [filter_map_eq_flatMap (fun e : Nat × Nat × Bool => bf &&& e.1 ≠ 0)]
  simp only [mouseButtonCalls, mouseSubFlags, List.flatMap_cons, List.flatMap_nil,
    List.append_nil, List.append_assoc]

theorem mouseButtonCalls_isKeyPress (h : HANDLE) (bf : Nat) :
    (mouseButtonCalls h bf).filter SinkEvent.isKeyPress = mouseButtonCalls h bf := by
  rw [List.filter_eq_self, mouseButtonCalls_eq]
  intro e he
  simp only [List.mem_map] at he
  obtain ⟨x, _, rfl⟩ := he
  rfl

theorem mouseButtonCalls_isMouseMovement (h : HANDLE) (bf : Nat) :
    (mouseButtonCalls h bf).filter SinkEvent.isMouseMovement = [] := by
  rw [List.filter_eq_nil_iff, mouseButtonCalls_eq]
  intro e he
  simp only [List.mem_map] at he
  obtain ⟨x, _, rfl⟩ := he
  simp [SinkEvent.isMouseMovement]

/-! ## Mouse payloads -/

/-- C2: for every mouse payload, in relative or absolute mode, `App::OnRawInput` completes
and its `HandleKeyPress` calls are exactly one per set sub-flag among the ten down/up
flags, in table order (down before up for each button), with the matching code and
pressed state; their number is the number of set sub-flags; and a payload whose button
flags are button-4-down and button-4-up emits `(VK_XBUTTON1, true)` then
`(VK_XBUTTON1, false)`. -/
theorem OnRawInput_mouse_buttons (env : Env) (app : App) (h : HANDLE) (mouse : RAWMOUSE) :
    (∃ app1 evs, App.OnRawInput env app ⟨h, RawData.mouse mouse⟩ = some (app1, evs) ∧
      evs.filter SinkEvent.isKeyPress =
        (setSubFlags mouse.usButtonFlags).map (fun e => SinkEvent.HandleKeyPress h e.2.1 e.2.2) ∧
      (evs.filter SinkEvent.isKeyPress).length = (setSubFlags mouse.usButtonFlags).length) ∧
    (∀ (usFlags : Nat) (x y : Int),
      (App.OnRawInput env app
          ⟨h, RawData.mouse ⟨usFlags, RI_MOUSE_BUTTON_4_DOWN ||| RI_MOUSE_BUTTON_4_UP, x, y⟩⟩).map
        (fun r => r.2.filter SinkEvent.isKeyPress) =
      some [SinkEvent.HandleKeyPress h VK_XBUTTON1 true,
            SinkEvent.HandleKeyPress h VK_XBUTTON1 false]) := by
  have key : ∀ m : RAWMOUSE, ∃ app1 evs,
      App.OnRawInput env app ⟨h, RawData.mouse m⟩ = some (app1, evs) ∧
      evs.filter SinkEvent.isKeyPress = mouseButtonCalls h m.usButtonFlags := by
    intro m
    simp only [App.OnRawInput, FindIdev_eq]
    by_cases habs : m.usFlags &&& MOUSE_MOVE_ABSOLUTE ≠ 0
    · rw [if_pos habs]
      exact ⟨_, _, rfl, mouseButtonCalls_isKeyPress h _⟩
    · rw [if_neg habs]
      refine ⟨_, _, rfl, ?_⟩
      rw [List.filter_append, mouseButtonCalls_isKeyPress]
      simp [SinkEvent.isKeyPress]
  constructor
  · obtain ⟨app1, evs, hrun, hev⟩ := key mouse
    refine ⟨app1, evs, hrun, ?_, ?_⟩
    · rw [hev, mouseButtonCalls_eq]
    · rw [hev, mouseButtonCalls_eq, List.length_map]
  · intro usFlags x y
    obtain ⟨app1, evs, hrun, hev⟩ := key ⟨usFlags, RI_MOUSE_BUTTON_4_DOWN ||| RI_MOUSE_BUTTON_4_UP, x, y⟩
    rw [hrun]
    simp only [Option.map_some', hev]
    rfl

/-- C3: for every mouse payload `App::OnRawInput` completes and its
`HandleMouseMovement` calls are exactly one carrying `(lLastX, lLastY)` unchanged when
`MOUSE_MOVE_ABSOLUTE` is clear (also for zero deltas) and none when it is set. -/
theorem OnRawInput_mouse_motion (env : Env) (app : App) (h : HANDLE) (mouse : RAWMOUSE) :
    ∃ app1 evs, App.OnRawInput env app ⟨h, RawData.mouse mouse⟩ = some (app1, evs) ∧
      evs.filter SinkEvent.isMouseMovement =
        (if mouse.usFlags &&& MOUSE_MOVE_ABSOLUTE = 0 then
          [SinkEvent.HandleMouseMovement h mouse.lLastX mouse.lLastY]
         else []) ∧
      (evs.filter SinkEvent.isMouseMovement).length =
        (if mouse.usFlags &&& MOUSE_MOVE_ABSOLUTE = 0 then 1 else 0) := by
  simp only [App.OnRawInput, FindIdev_eq]
  by_cases habs : mouse.usFlags &&& MOUSE_MOVE_ABSOLUTE = 0
  · rw [if_neg (not_not.mpr habs), if_pos habs, if_pos habs]
    refine ⟨_, _, rfl, ?_, ?_⟩ <;>
      simp [List.filter_append, mouseButtonCalls_isMouseMovement, SinkEvent.isMouseMovement]
  · rw [if_pos habs, if_neg habs, if_neg habs]
    refine ⟨_, _, rfl, ?_, ?_⟩ <;> simp [mouseButtonCalls_isMouseMovement]

/-! ## Device arrival and removal -/

/-- C8: after `App::OnIdevDisconnect(h)`, in either build configuration, the registry has
no record for `h`, the record of every other handle is unchanged, and when `h` had no
record the whole state is exactly as it was; the call always completes. -/
theorem OnIdevDisconnect_post (env : Env) (app : App) (h : HANDLE) :
    devices_find (App.OnIdevDisconnect env app h).devices h = none ∧
    (∀ h1 : HANDLE, h1 ≠ h →
      devices_find (App.OnIdevDisconnect env app h).devices h1 = devices_find app.devices h1) ∧
    (devices_find app.devices h = none → App.OnIdevDisconnect env app h = app) ∧
    (App.OnIdevDisconnect env app h).shownWindowCount = app.shownWindowCount := by
  unfold App.OnIdevDisconnect
  by_cases hc : (env._DEBUG && (devices_find app.devices h).isNone) = true
  · rw [if_pos hc]
    have habs : devices_find app.devices h = none := by
      simp only [Bool.and_eq_true, Option.isNone_iff_eq_none] at hc
      exact hc.2
    exact ⟨habs, fun _ _ => rfl, fun _ => rfl, rfl⟩
  · rw [if_neg hc]
    refine ⟨devices_find_erase_self _ _, fun h1 hne => devices_find_erase_ne _ _ _ hne, ?_, rfl⟩
    intro habs
    show ({ app with devices := devices_erase app.devices h } : App) = app
    rw [devices_erase_absent _ _ habs]

/-- Witness for C8: removing handle 7 from a registry holding 7 and 9 keeps only 9,
and removing the unknown handle 8 changes nothing. -/
theorem OnIdevDisconnect_post_witness :
    (devices_find (App.OnIdevDisconnect sampleEnv
        ⟨[(7, IdevDevice.FromHANDLE sampleEnv 7), (9, IdevDevice.FromHANDLE sampleEnv 9)], 1⟩ 7).devices 7
      = none) ∧
    (devices_find (App.OnIdevDisconnect sampleEnv
        ⟨[(7, IdevDevice.FromHANDLE sampleEnv 7), (9, IdevDevice.FromHANDLE sampleEnv 9)], 1⟩ 7).devices 9
      = devices_find [(7, IdevDevice.FromHANDLE sampleEnv 7), (9, IdevDevice.FromHANDLE sampleEnv 9)] 9) ∧
    (App.OnIdevDisconnect sampleEnv
        ⟨[(7, IdevDevice.FromHANDLE sampleEnv 7), (9, IdevDevice.FromHANDLE sampleEnv 9)], 1⟩ 8
      = ⟨[(7, IdevDevice.FromHANDLE sampleEnv 7), (9, IdevDevice.FromHANDLE sampleEnv 9)], 1⟩) :=
  ⟨(OnIdevDisconnect_post sampleEnv _ 7).1,
   (OnIdevDisconnect_post sampleEnv _ 7).2.1 9 (by decide),
   (OnIdevDisconnect_post sampleEnv _ 8).2.2.1 rfl⟩

/-- On a handle that already has a record `App::OnIdevConnect` never modifies the
state: `try_emplace` keeps the existing record, and the call returns it when `NDEBUG`
is defined and stops at `assert(success)` otherwise. -/
theorem OnIdevConnect_existing (env : Env) (app : App) (h : HANDLE) (idev : IdevDevice)
    (hrec : devices_find app.devices h = some idev) :
    App.OnIdevConnect env app h = if env.NDEBUG = true then some (app, idev) else none := by
  unfold App.OnIdevConnect devices_try_emplace
  rw [hrec]
  cases hnd : env.NDEBUG <;> simp

/-- C5 fails on the code when assertions are enabled.  A key press from the unseen
keyboard 7 makes `FindIdev` create its record (key 0x41 now pressed); the arrival
notification for 7 that follows reaches `assert(success)` with `success` false and the
call does not complete.  The same happens for two arrival notifications in a row.  With
`NDEBUG` defined the same deliveries complete and leave the one record of 7, with key
0x41 still pressed, as the claim says. -/
theorem duplicate_arrival_fails_assert :
    (WndProcSeq sampleEnv ⟨[], 0⟩
        [Msg.WM_INPUT (some ⟨7, RawData.keyboard ⟨0x1E, 0, 0x41⟩⟩)]).map
        (fun a => (a.devices.map Prod.fst, keyStateOf a 7 0x41)) = some ([7], true) ∧
    (WndProcSeq sampleEnv ⟨[], 0⟩
        [Msg.WM_INPUT (some ⟨7, RawData.keyboard ⟨0x1E, 0, 0x41⟩⟩),
         Msg.WM_INPUT_DEVICE_CHANGE GIDC_ARRIVAL 7]).isSome = false ∧
    (WndProcSeq sampleEnv ⟨[], 0⟩
        [Msg.WM_INPUT_DEVICE_CHANGE GIDC_ARRIVAL 7,
         Msg.WM_INPUT_DEVICE_CHANGE GIDC_ARRIVAL 7]).isSome = false ∧
    (WndProcSeq { sampleEnv with NDEBUG := true } ⟨[], 0⟩
        [Msg.WM_INPUT (some ⟨7, RawData.keyboard ⟨0x1E, 0, 0x41⟩⟩),
         Msg.WM_INPUT_DEVICE_CHANGE GIDC_ARRIVAL 7]).map
        (fun a => (a.devices.map Prod.fst, keyStateOf a 7 0x41)) = some ([7], true) := by
  decide

/-! ## Keyboard payloads -/

theorem keyStateOf_append_fresh (env : Env) (app : App) (h d : HANDLE) (k : Nat) :
    keyStateOf { app with devices := app.devices ++ [(h, IdevDevice.FromHANDLE env h)] } d k
      = keyStateOf app d k := by
  unfold keyStateOf
  cases hd : devices_find app.devices d with
  | some r => simp only [devices_find_append_some _ _ _ _ hd]
  | none =>
    simp only [devices_find_append_none _ _ _ hd, devices_find]
    by_cases hh : h = d
    · simp [hh, IdevDevice.FromHANDLE]
    · simp [hh]

theorem keyStateOf_modify (app : App) (h d : HANDLE) (nv k : Nat) (press : Bool)
    (idev : IdevDevice) (hrec : devices_find app.devices h = some idev) :
    keyStateOf
        { app with
          devices := devices_modify app.devices h
                       (fun r => { r with keyStates := bitset_set r.keyStates nv press }) } d k
      = if d = h ∧ k = nv then press else keyStateOf app d k := by
  unfold keyStateOf
  by_cases hd : d = h
  · subst hd
    simp only [devices_find_modify_self, hrec, Option.map_some', bitset_set, true_and]
  · simp only [devices_find_modify_ne _ _ _ _ hd, hd, false_and, if_false]

theorem press_eq_pressedOf (kbd : RAWKEYBOARD) :
    (!decide (kbd.Flags &&& RI_KEY_BREAK ≠ 0)) = pressedOf kbd := by
  unfold pressedOf
  by_cases hb : kbd.Flags &&& RI_KEY_BREAK = 0
  · rw [decide_eq_true hb, decide_eq_false (not_not.mpr hb)]; rfl
  · rw [decide_eq_false hb, decide_eq_true (show kbd.Flags &&& RI_KEY_BREAK ≠ 0 from hb)]; rfl

/-- One supported keyboard payload: the call completes, emits an event exactly when the
stored state of the effective key differs from the reported one, and afterwards that
key holds the reported state while every other key of every device is as before. -/
theorem OnRawInput_keyboard_step (env : Env) (app : App) (h : HANDLE) (kbd : RAWKEYBOARD)
    (hbyte : kbd.VKey ≤ 0xFF) (hsent : kbd.VKey ≠ 0xFF) :
    ∃ app1, App.OnRawInput env app ⟨h, RawData.keyboard kbd⟩ =
        some (app1, if keyStateOf app h (newVKey env kbd) = pressedOf kbd then []
                    else [SinkEvent.HandleKeyPress h (newVKey env kbd) (pressedOf kbd)]) ∧
      (∀ d k, keyStateOf app1 d k =
        if d = h ∧ k = newVKey env kbd then pressedOf kbd else keyStateOf app d k) ∧
      app1.shownWindowCount = app.shownWindowCount := by
  have hgt : ¬ kbd.VKey > 0xFF := Nat.not_lt.mpr hbyte
  simp only [App.OnRawInput, FindIdev_eq, if_neg hsent, if_neg hgt, press_eq_pressedOf]
  cases hf : devices_find app.devices h with
  | none =>
    have hks : keyStateOf app h (newVKey env kbd) = false := by simp [keyStateOf, hf]
    have hfind : devices_find (app.devices ++ [(h, IdevDevice.FromHANDLE env h)]) h
        = some (IdevDevice.FromHANDLE env h) := by
      rw [devices_find_append_none _ _ _ hf]; simp [devices_find]
    simp only [hks]
    by_cases hp : false = pressedOf kbd
    · rw [if_pos (show (IdevDevice.FromHANDLE env h).keyStates (newVKey env kbd) = pressedOf kbd
        from hp), if_pos hp]
      refine ⟨_, rfl, ?_, rfl⟩
      intro d k
      rw [keyStateOf_append_fresh env app h d k]
      by_cases hc : d = h ∧ k = newVKey env kbd
      · rw [if_pos hc, ← hp, hc.1, hc.2, hks]
      · rw [if_neg hc]
    · rw [if_neg (show ¬ (IdevDevice.FromHANDLE env h).keyStates (newVKey env kbd) = pressedOf kbd
        from hp), if_neg hp]
      refine ⟨_, rfl, ?_, rfl⟩
      intro d k
      have := keyStateOf_modify
        { app with devices := app.devices ++ [(h, IdevDevice.FromHANDLE env h)] }
        h d (newVKey env kbd) k (pressedOf kbd) _ hfind
      rw [this, keyStateOf_append_fresh env app h d k]
  | some idev =>
    have hks : keyStateOf app h (newVKey env kbd) = idev.keyStates (newVKey env kbd) := by
      simp [keyStateOf, hf]
    simp only [hks]
    by_cases hp : idev.keyStates (newVKey env kbd) = pressedOf kbd
    · rw [if_pos hp, if_pos hp]
      refine ⟨_, rfl, ?_, rfl⟩
      intro d k
      by_cases hc : d = h ∧ k = newVKey env kbd
      · rw [if_pos hc, ← hp, hc.1, hc.2, hks]
      · rw [if_neg hc]
    · rw [if_neg hp, if_neg hp]
      refine ⟨_, rfl, ?_, rfl⟩
      intro d k
      exact keyStateOf_modify app h d (newVKey env kbd) k (pressedOf kbd) idev hf

/-- C4: for every keyboard payload with a byte-sized, non-sentinel key code that is a
true transition, `App::OnRawInput` completes, emits the single event
`(newVKey, pressed)` and stores the new state under `newVKey`, leaving every other key
state alone; and `newVKey` is the effective identity: `VK_CONTROL` gives `VK_LCONTROL`
without `RI_KEY_E0` and `VK_RCONTROL` with it, `VK_MENU` gives `VK_LMENU` / `VK_RMENU`
likewise, `VK_SHIFT` gives what `MapVirtualKeyW` returns for the make code (a virtual-key
code, hence byte-sized), and every other code is unchanged. -/
theorem OnRawInput_keyboard_effective_key (env : Env) (app : App) (h : HANDLE)
    (kbd : RAWKEYBOARD) (hbyte : kbd.VKey ≤ 0xFF) (hsent : kbd.VKey ≠ 0xFF)
    (htrans : keyStateOf app h (newVKey env kbd) ≠ pressedOf kbd) :
    (∃ app1, App.OnRawInput env app ⟨h, RawData.keyboard kbd⟩ =
        some (app1, [SinkEvent.HandleKeyPress h (newVKey env kbd) (pressedOf kbd)]) ∧
      keyStateOf app1 h (newVKey env kbd) = pressedOf kbd ∧
      (∀ d k, ¬ (d = h ∧ k = newVKey env kbd) → keyStateOf app1 d k = keyStateOf app d k)) ∧
    (kbd.VKey = VK_CONTROL →
      newVKey env kbd = if kbd.Flags &&& RI_KEY_E0 = 0 then VK_LCONTROL else VK_RCONTROL) ∧
    (kbd.VKey = VK_MENU →
      newVKey env kbd = if kbd.Flags &&& RI_KEY_E0 = 0 then VK_LMENU else VK_RMENU) ∧
    (kbd.VKey = VK_SHIFT → env.MapVirtualKeyW kbd.MakeCode MAPVK_VSC_TO_VK_EX ≤ 0xFF →
      newVKey env kbd = env.MapVirtualKeyW kbd.MakeCode MAPVK_VSC_TO_VK_EX) ∧
    (kbd.VKey ≠ VK_SHIFT → kbd.VKey ≠ VK_CONTROL → kbd.VKey ≠ VK_MENU →
      newVKey env kbd = kbd.VKey) := by
  refine ⟨?_, ?_, ?_, ?_, ?_⟩
  · obtain ⟨app1, hrun, hst, _⟩ := OnRawInput_keyboard_step env app h kbd hbyte hsent
    rw [if_neg htrans] at hrun
    refine ⟨app1, hrun, ?_, ?_⟩
    · rw [hst, if_pos ⟨rfl, rfl⟩]
    · intro d k hne
      rw [hst, if_neg hne]
  · intro hv
    by_cases he : kbd.Flags &&& RI_KEY_E0 = 0 <;> simp [newVKey, hv, he] <;> decide
  · intro hv
    by_cases he : kbd.Flags &&& RI_KEY_E0 = 0 <;> simp [newVKey, hv, he] <;> decide
  · intro hv hmap
    simp only [newVKey]
    rw [if_pos hv]
    exact Nat.mod_eq_of_lt (Nat.lt_succ_of_le hmap)
  · intro h1 h2 h3
    simp only [newVKey]
    rw [if_neg h1, if_neg h2, if_neg h3]
    exact Nat.mod_eq_of_lt (Nat.lt_succ_of_le hbyte)

/-- Witness for C4: a generic shift press whose make code (0x36) maps to right shift
emits one event for `VK_RSHIFT`, and a generic control press with `RI_KEY_E0` resolves
to `VK_RCONTROL`. -/
theorem OnRawInput_keyboard_effective_key_witness :
    (App.OnRawInput sampleEnv ⟨[], 0⟩ ⟨7, RawData.keyboard ⟨0x36, 0, VK_SHIFT⟩⟩).map Prod.snd
      = some [SinkEvent.HandleKeyPress 7 VK_RSHIFT true] ∧
    newVKey sampleEnv ⟨0x1D, RI_KEY_E0, VK_CONTROL⟩ = VK_RCONTROL := by
  have hs := OnRawInput_keyboard_effective_key sampleEnv ⟨[], 0⟩ 7 ⟨0x36, 0, VK_SHIFT⟩
    (by decide) (by decide) (by decide)
  have hc := OnRawInput_keyboard_effective_key sampleEnv ⟨[], 0⟩ 7 ⟨0x1D, RI_KEY_E0, VK_CONTROL⟩
    (by decide) (by decide) (by decide)
  obtain ⟨⟨app1, hrun, _, _⟩, _, _, hshift, _⟩ := hs
  refine ⟨?_, ?_⟩
  · rw [hrun, hshift rfl (by decide)]
    rfl
  · rw [hc.2.1 rfl]
    rfl

theorem keyPressCount_append (d : HANDLE) (k : Nat) (a b : List SinkEvent) :
    keyPressCount d k (a ++ b) = keyPressCount d k a + keyPressCount d k b := by
  simp [keyPressCount, List.filter_append]

/-- Repeat suppression from any starting state: for each device and key the number of
events is the number of transitions counted from the stored state. -/
theorem OnRawInputSeq_keyboard_count (env : Env) (kbds : List (HANDLE × RAWKEYBOARD)) :
    ∀ app : App, (∀ p ∈ kbds, p.2.VKey ≤ 0xFF ∧ p.2.VKey ≠ 0xFF) →
      ∃ app1 evs, OnRawInputSeq env app (keyboardInputs kbds) = some (app1, evs) ∧
        ∀ d k, keyPressCount d k evs
          = transitions (keyStateOf app d k) (payloadsFor env d k kbds) := by
  induction kbds with
  | nil =>
    intro app _
    exact ⟨app, [], rfl, fun _ _ => rfl⟩
  | cons p rest ih =>
    intro app hall
    have hp := hall p (List.mem_cons_self _ _)
    obtain ⟨app1, hrun, hst, _⟩ := OnRawInput_keyboard_step env app p.1 p.2 hp.1 hp.2
    obtain ⟨app2, evs2, hrun2, hcount2⟩ :=
      ih app1 (fun q hq => hall q (List.mem_cons_of_mem _ hq))
    refine ⟨app2, (if keyStateOf app p.1 (newVKey env p.2) = pressedOf p.2 then []
        else [SinkEvent.HandleKeyPress p.1 (newVKey env p.2) (pressedOf p.2)]) ++ evs2, ?_, ?_⟩
    · have hrun2b : OnRawInputSeq env app1 (keyboardInputs rest) = some (app2, evs2) := hrun2
      show OnRawInputSeq env app (⟨p.1, RawData.keyboard p.2⟩ :: keyboardInputs rest) = _
      simp only [OnRawInputSeq, hrun, hrun2b]
    · intro d k
      rw [keyPressCount_append, hcount2 d k, hst d k]
      by_cases hc : d = p.1 ∧ k = newVKey env p.2
      · have hpf : payloadsFor env d k (p :: rest)
            = pressedOf p.2 :: payloadsFor env d k rest := by
          have hdec : decide (p.1 = d ∧ newVKey env p.2 = k) = true :=
            decide_eq_true ⟨hc.1.symm, hc.2.symm⟩
          simp only [payloadsFor, List.filter_cons, hdec, if_true, List.map_cons]
        rw [hpf, if_pos hc, hc.1, hc.2]
        simp only [transitions]
        by_cases heq : keyStateOf app p.1 (newVKey env p.2) = pressedOf p.2
        · rw [if_pos heq, if_neg (not_not.mpr heq.symm)]
          rfl
        · rw [if_neg heq, if_pos (fun hx => heq hx.symm)]
          simp [keyPressCount, SinkEvent.isKeyPressFor]
      · have hpf : payloadsFor env d k (p :: rest) = payloadsFor env d k rest := by
          have hdec : decide (p.1 = d ∧ newVKey env p.2 = k) = false :=
            decide_eq_false (fun hx => hc ⟨hx.1.symm, hx.2.symm⟩)
          simp only [payloadsFor, List.filter_cons, hdec]
          rfl
        rw [hpf, if_neg hc]
        have hz : keyPressCount d k
            (if keyStateOf app p.1 (newVKey env p.2) = pressedOf p.2 then []
             else [SinkEvent.HandleKeyPress p.1 (newVKey env p.2) (pressedOf p.2)]) = 0 := by
          by_cases heq : keyStateOf app p.1 (newVKey env p.2) = pressedOf p.2
          · rw [if_pos heq]; rfl
          · rw [if_neg heq]
            have hdec : decide (p.1 = d ∧ newVKey env p.2 = k) = false :=
              decide_eq_false (fun hx => hc ⟨hx.1.symm, hx.2.symm⟩)
            simp only [keyPressCount, List.filter_cons, SinkEvent.isKeyPressFor, hdec]
            rfl
        rw [hz, Nat.zero_add]

theorem keyStateOf_fresh (app : App)
    (hfresh : ∀ e ∈ app.devices, ∀ k, e.2.keyStates k = false) (d : HANDLE) (k : Nat) :
    keyStateOf app d k = false := by
  obtain ⟨devices, cnt⟩ := app
  simp only at hfresh
  unfold keyStateOf
  simp only
  induction devices with
  | nil => rfl
  | cons e t ih =>
    obtain ⟨k1, v⟩ := e
    by_cases hk : k1 = d
    · simp only [devices_find, hk, if_true]
      exact hfresh (k1, v) (List.mem_cons_self _ _) k
    · simp only [devices_find, hk, if_false]
      exact ih (fun e he => hfresh e (List.mem_cons_of_mem _ he))

/-- C1: for every sequence of keyboard payloads with byte-sized, non-sentinel key codes,
from any mix of devices and keys, processed from a state whose device records have every
key released, `App::OnRawInput` completes on each payload and, for every device `d` and
effective key `k`, the number of `HandleKeyPress` events emitted for `(d, k)` equals the
number of payloads for `(d, k)` whose pressed state differs from that of the previous
payload for `(d, k)` (released if there is none). -/
theorem OnRawInput_repeat_suppression (env : Env) (app : App)
    (kbds : List (HANDLE × RAWKEYBOARD))
    (hcodes : ∀ p ∈ kbds, p.2.VKey ≤ 0xFF ∧ p.2.VKey ≠ 0xFF)
    (hfresh : ∀ e ∈ app.devices, ∀ k, e.2.keyStates k = false) :
    ∃ app1 evs, OnRawInputSeq env app (keyboardInputs kbds) = some (app1, evs) ∧
      ∀ d k, keyPressCount d k evs = transitions false (payloadsFor env d k kbds) := by
  obtain ⟨app1, evs, hrun, hcount⟩ := OnRawInputSeq_keyboard_count env kbds app hcodes
  refine ⟨app1, evs, hrun, ?_⟩
  intro d k
  rw [hcount d k, keyStateOf_fresh app hfresh d k]

/-- Witness for C1: the five payloads of the scenario emit exactly `(0x41, true)` then
`(0x41, false)`, two events for two transitions. -/
theorem OnRawInput_repeat_suppression_witness :
    (OnRawInputSeq sampleEnv ⟨[], 0⟩ (keyboardInputs repeatScenario)).map Prod.snd
      = some [SinkEvent.HandleKeyPress 10 0x41 true, SinkEvent.HandleKeyPress 10 0x41 false] ∧
    transitions false (payloadsFor sampleEnv 10 0x41 repeatScenario) = 2 ∧
    (∃ app1 evs, OnRawInputSeq sampleEnv ⟨[], 0⟩ (keyboardInputs repeatScenario) = some (app1, evs) ∧
      keyPressCount 10 0x41 evs = 2) := by
  obtain ⟨app1, evs, hrun, hcount⟩ :=
    OnRawInput_repeat_suppression sampleEnv ⟨[], 0⟩ repeatScenario (by decide)
      (by intro e he; cases he)
  have ht : transitions false (payloadsFor sampleEnv 10 0x41 repeatScenario) = 2 := by decide
  refine ⟨by decide, ht, app1, evs, hrun, ?_⟩
  rw [hcount 10 0x41, ht]

/-- C10 as stated fails: a discarded keyboard payload (sentinel code 0xFF) from a handle
without a record adds that handle to the registry. -/
theorem OnRawInput_discarded_registers_device :
    (⟨[], 0⟩ : App).devices.map Prod.fst = [] ∧
    (App.OnRawInput sampleEnv ⟨[], 0⟩ ⟨7, RawData.keyboard ⟨0, 0, 0xFF⟩⟩).map
        (fun r => (r.1.devices.map Prod.fst, r.2)) = some ([7], []) := by
  decide

/-- C10, amended: for every state and every keyboard payload whose key code is 0xFF or
greater, `App::OnRawInput` completes, emits no event and changes no record that exists;
when the handle already has a record the state is exactly as before, and when it has
none `FindIdev` (called before the code is examined) adds a fresh record for it and
nothing else. -/
theorem OnRawInput_discarded_keyboard (env : Env) (app : App) (h : HANDLE) (kbd : RAWKEYBOARD)
    (hcode : 0xFF ≤ kbd.VKey) :
    ∃ app1, App.OnRawInput env app ⟨h, RawData.keyboard kbd⟩ = some (app1, []) ∧
      (∀ h1 r, devices_find app.devices h1 = some r → devices_find app1.devices h1 = some r) ∧
      (∀ d k, keyStateOf app1 d k = keyStateOf app d k) ∧
      ((devices_find app.devices h).isSome = true → app1 = app) ∧
      (devices_find app.devices h = none →
        app1.devices = app.devices ++ [(h, IdevDevice.FromHANDLE env h)]) ∧
      app1.shownWindowCount = app.shownWindowCount := by
  have hout : ∀ (a : App), (if kbd.VKey = 0xFF then some (a, ([] : List SinkEvent))
      else if kbd.VKey > 0xFF then some (a, []) else
        (let prevPress := (match devices_find app.devices h with
            | some idev => (app, idev)
            | none => ({ app with devices := app.devices ++ [(h, IdevDevice.FromHANDLE env h)] },
                       IdevDevice.FromHANDLE env h)).2.keyStates (newVKey env kbd)
         let press : Bool := !decide (kbd.Flags &&& RI_KEY_BREAK ≠ 0)
         if prevPress = press then some (a, [])
         else some (a, []))) = some (a, []) := by
    intro a
    by_cases h1 : kbd.VKey = 0xFF
    · rw [if_pos h1]
    · rw [if_neg h1, if_pos (lt_of_le_of_ne hcode (Ne.symm h1))]
  simp only [App.OnRawInput, FindIdev_eq]
  cases hf : devices_find app.devices h with
  | some idev =>
    refine ⟨app, ?_, fun _ _ hr => hr, fun _ _ => rfl, fun _ => rfl, ?_, rfl⟩
    · by_cases h1 : kbd.VKey = 0xFF
      · simp only [if_pos h1]
      · simp only [if_neg h1, if_pos (lt_of_le_of_ne hcode (Ne.symm h1))]
    · intro hc; cases hc
  | none =>
    refine ⟨{ app with devices := app.devices ++ [(h, IdevDevice.FromHANDLE env h)] }, ?_,
      fun h1 r hr => devices_find_append_some _ _ _ _ hr,
      fun d k => keyStateOf_append_fresh env app h d k, ?_, fun _ => rfl, rfl⟩
    · by_cases h1 : kbd.VKey = 0xFF
      · simp only [if_pos h1]
      · simp only [if_neg h1, if_pos (lt_of_le_of_ne hcode (Ne.symm h1))]
    · intro hc; simp at hc

/-- Witness for the amended C10: an over-wide key code (0x100) from the registered
handle 7 leaves the state exactly as it was and emits nothing. -/
theorem OnRawInput_discarded_keyboard_witness :
    ∃ app1, App.OnRawInput sampleEnv ⟨[(7, IdevDevice.FromHANDLE sampleEnv 7)], 1⟩
        ⟨7, RawData.keyboard ⟨0, 0, 0x100⟩⟩ = some (app1, []) ∧
      app1 = ⟨[(7, IdevDevice.FromHANDLE sampleEnv 7)], 1⟩ := by
  obtain ⟨app1, hrun, _, _, hsame, _, _⟩ :=
    OnRawInput_discarded_keyboard sampleEnv ⟨[(7, IdevDevice.FromHANDLE sampleEnv 7)], 1⟩ 7
      ⟨0, 0, 0x100⟩ (by decide)
  exact ⟨app1, hrun, hsame rfl⟩

/-! ## The pump -/

/-- C6 fails on the code when the pump is in the blocking loop: with
`shownWindowCount = 0`, `GetMessageW` returns zero for `WM_QUIT`, so the loop body with
its `goto exit` is skipped; the pump falls into the polling loop, performs a render pass
and waits in `GetMessageW` again instead of returning.  When another message is queued
behind `WM_QUIT` it is retrieved as well. -/
theorem AppMain_quit_while_blocking (env : Env) (devices : List (HANDLE × IdevDevice))
    (fuel : Nat) :
    AppMain env (fuel + 2) ⟨devices, 0⟩ [some Msg.WM_QUIT]
      = ⟨[PumpStep.GetMessageW Msg.WM_QUIT 0, PumpStep.MainRenderFrame 0], PumpExit.blocked⟩ ∧
    AppMain env (fuel + 2) ⟨devices, 0⟩ [some Msg.WM_QUIT, some Msg.WM_TIMER]
      = ⟨[PumpStep.GetMessageW Msg.WM_QUIT 0, PumpStep.PeekMessageW Msg.WM_TIMER 0,
          PumpStep.MainRenderFrame 0], PumpExit.blocked⟩ := by
  constructor
  · simp [AppMain, blockingLoop, pollingLoop, GetMessageW_nonzero]
  · cases hi : env.ImGui_ImplWin32_WndProcHandler Msg.WM_TIMER <;>
      simp [AppMain, blockingLoop, pollingLoop, GetMessageW_nonzero, MainWindowWndProc, hi]

/-- C7 fails on the code: every `WM_SIZE` other than `SIZE_MINIMIZED` increments
`shownWindowCount`, also when the window is already shown.  After the show and one
resize (or a maximize) the count is 2, and a following minimize leaves it at 1. -/
theorem WndProc_resize_while_shown_increments :
    (WndProcSeq sampleEnv ⟨[], 0⟩ [Msg.WM_SIZE SIZE_RESTORED, Msg.WM_SIZE SIZE_RESTORED]).map
        App.shownWindowCount = some 2 ∧
    (WndProcSeq sampleEnv ⟨[], 0⟩ [Msg.WM_SIZE SIZE_RESTORED, Msg.WM_SIZE SIZE_MAXIMIZED]).map
        App.shownWindowCount = some 2 ∧
    (WndProcSeq sampleEnv ⟨[], 0⟩
        [Msg.WM_SIZE SIZE_RESTORED, Msg.WM_SIZE SIZE_RESTORED, Msg.WM_SIZE SIZE_MINIMIZED]).map
        App.shownWindowCount = some 1 := by
  decide

theorem RendersWithin_mono : ∀ (t : List PumpStep) (b b1 : Nat), b ≤ b1 →
    RendersWithin b t → RendersWithin b1 t := by
  intro t
  induction t with
  | nil => intro _ _ _ _; trivial
  | cons x t ih =>
    intro b b1 hle h
    simp only [RendersWithin] at h ⊢
    by_cases hc : x.count ≠ 0
    · rw [if_pos hc] at h ⊢; exact h
    · rw [if_neg hc] at h ⊢
      by_cases hr : x.isRender = true
      · rw [if_pos hr] at h ⊢
        exact ⟨lt_of_lt_of_le h.1 hle, ih _ _ (Nat.sub_le_sub_right hle 1) h.2⟩
      · rw [if_neg hr] at h ⊢
        exact ih _ _ hle h

theorem RendersWithin_append_of_zero : ∀ (p t : List PumpStep) (b : Nat),
    (∀ x ∈ p, x.isRender = false) → RendersWithin (min b 1) t → RendersWithin b (p ++ t) := by
  intro p
  induction p with
  | nil =>
    intro t b _ h
    exact RendersWithin_mono t _ _ (Nat.min_le_left b 1) h
  | cons x p ih =>
    intro t b hnr h
    have hx : ¬ x.isRender = true := by
      rw [hnr x (List.mem_cons_self _ _)]; decide
    have hp : ∀ y ∈ p, y.isRender = false := fun y hy => hnr y (List.mem_cons_of_mem _ hy)
    simp only [List.cons_append, RendersWithin]
    by_cases hc : x.count ≠ 0
    · rw [if_pos hc]
      exact ih t 1 hp (RendersWithin_mono t _ _ (by omega) h)
    · rw [if_neg hc, if_neg hx]
      exact ih t b hp h

theorem RendersWithin_append_of_nonzero : ∀ (p t : List PumpStep) (b : Nat),
    (∀ x ∈ p, x.isRender = false) → (∃ x ∈ p, x.count ≠ 0) → RendersWithin 1 t →
    RendersWithin b (p ++ t) := by
  intro p
  induction p with
  | nil =>
    intro t b _ hnz _
    obtain ⟨x, hx, _⟩ := hnz
    cases hx
  | cons x p ih =>
    intro t b hnr hnz h
    have hx : ¬ x.isRender = true := by
      rw [hnr x (List.mem_cons_self _ _)]; decide
    have hp : ∀ y ∈ p, y.isRender = false := fun y hy => hnr y (List.mem_cons_of_mem _ hy)
    simp only [List.cons_append, RendersWithin]
    by_cases hc : x.count ≠ 0
    · rw [if_pos hc]
      exact RendersWithin_append_of_zero p t 1 hp h
    · rw [if_neg hc, if_neg hx]
      obtain ⟨y, hy, hyc⟩ := hnz
      rcases List.mem_cons.mp hy with rfl | hy
      · exact absurd hyc hc
      · exact ih t b hp ⟨y, hy, hyc⟩ h

theorem RendersWithin_leading : ∀ (seg post : List PumpStep) (b : Nat),
    RendersWithin b (seg ++ post) → (∀ x ∈ seg, x.count = 0) →
    (seg.filter PumpStep.isRender).length ≤ b := by
  intro seg
  induction seg with
  | nil => intro _ b _ _; exact Nat.zero_le b
  | cons x seg ih =>
    intro post b h hz
    have hx0 : ¬ x.count ≠ 0 := not_not.mpr (hz x (List.mem_cons_self _ _))
    have hseg : ∀ y ∈ seg, y.count = 0 := fun y hy => hz y (List.mem_cons_of_mem _ hy)
    simp only [List.cons_append, RendersWithin, if_neg hx0] at h
    by_cases hr : x.isRender = true
    · rw [if_pos hr] at h
      have := ih post (b - 1) h.2 hseg
      simp only [List.filter_cons, hr, if_true, List.length_cons]
      omega
    · rw [if_neg hr] at h
      simp only [List.filter_cons, hr]
      exact ih post b h hseg

theorem RendersWithin_segment : ∀ (pre seg post : List PumpStep) (b : Nat), b ≤ 1 →
    RendersWithin b (pre ++ seg ++ post) → (∀ x ∈ seg, x.count = 0) →
    (seg.filter PumpStep.isRender).length ≤ 1 := by
  intro pre
  induction pre with
  | nil =>
    intro seg post b hb h hz
    exact le_trans (RendersWithin_leading seg post b h hz) hb
  | cons x pre ih =>
    intro seg post b hb h hz
    simp only [List.cons_append, RendersWithin] at h
    by_cases hc : x.count ≠ 0
    · rw [if_pos hc] at h
      exact ih seg post 1 le_rfl h hz
    · rw [if_neg hc] at h
      by_cases hr : x.isRender = true
      · rw [if_pos hr] at h
        exact ih seg post (b - 1) (le_trans (Nat.sub_le b 1) hb) h.2 hz
      · rw [if_neg hr] at h
        exact ih seg post b hb h hz

theorem pollingLoop_trace_nonrender (env : Env) : ∀ (queue : List (Option Msg)) (s : App),
    ∀ x ∈ (pollingLoop env s queue).trace, x.isRender = false := by
  intro queue
  induction queue with
  | nil => intro s x hx; simp [pollingLoop] at hx
  | cons q rest ih =>
    intro s x hx
    cases q with
    | none => simp [pollingLoop] at hx
    | some msg =>
      simp only [pollingLoop] at hx
      cases hw : MainWindowWndProc env s msg with
      | none =>
        simp only [hw, List.mem_singleton] at hx
        rw [hx]; rfl
      | some r =>
        obtain ⟨s1, evs⟩ := r
        simp only [hw] at hx
        by_cases hq : msg = Msg.WM_QUIT
        · simp only [if_pos hq, List.mem_singleton] at hx
          rw [hx]; rfl
        · simp only [if_neg hq, List.mem_cons] at hx
          rcases hx with rfl | hx
          · rfl
          · exact ih s1 x hx

theorem blockingLoop_shown (env : Env) (s : App) (queue : List (Option Msg))
    (hs : s.shownWindowCount ≠ 0) :
    blockingLoop env s queue = ⟨LoopExit.fallThrough, s, queue, []⟩ := by
  cases queue with
  | nil => simp [blockingLoop, hs]
  | cons q rest => simp [blockingLoop, hs]

theorem blockingLoop_trace_nonrender (env : Env) : ∀ (queue : List (Option Msg)) (s : App),
    ∀ x ∈ (blockingLoop env s queue).trace, x.isRender = false := by
  intro queue
  induction queue with
  | nil =>
    intro s x hx
    by_cases hs : s.shownWindowCount ≠ 0 <;> simp [blockingLoop, hs] at hx
  | cons q rest ih =>
    intro s x hx
    by_cases hs : s.shownWindowCount ≠ 0
    · rw [blockingLoop_shown env s _ hs] at hx
      cases hx
    · simp only [blockingLoop, if_neg hs] at hx
      cases q with
      | none => exact ih s x hx
      | some msg =>
        simp only at hx
        by_cases hg : GetMessageW_nonzero msg = false
        · simp only [if_pos hg, List.mem_singleton] at hx
          rw [hx]; rfl
        · simp only [if_neg hg] at hx
          cases hw : MainWindowWndProc env s msg with
          | none =>
            simp only [hw, List.mem_singleton] at hx
            rw [hx]; rfl
          | some r =>
            obtain ⟨s1, evs⟩ := r
            simp only [hw] at hx
            by_cases hq : msg = Msg.WM_QUIT
            · simp only [if_pos hq, List.mem_singleton] at hx
              rw [hx]; rfl
            · simp only [if_neg hq, List.mem_cons] at hx
              rcases hx with rfl | hx
              · rfl
              · exact ih s1 x hx

/-- When `GetMessageW` never retrieves `WM_QUIT`, the blocking loop is left by falling
through only once the count is non-zero, and a step of it recorded that. -/
theorem blockingLoop_fallThrough (env : Env) : ∀ (queue : List (Option Msg)) (s : App),
    (blockingLoop env s queue).exit = LoopExit.fallThrough →
    (∀ c, PumpStep.GetMessageW Msg.WM_QUIT c ∉ (blockingLoop env s queue).trace) →
    (blockingLoop env s queue).app.shownWindowCount ≠ 0 ∧
    (s.shownWindowCount = 0 → ∃ x ∈ (blockingLoop env s queue).trace, x.count ≠ 0) := by
  intro queue
  induction queue with
  | nil =>
    intro s hexit _
    by_cases hs : s.shownWindowCount ≠ 0
    · rw [blockingLoop_shown env s _ hs]
      exact ⟨hs, fun h0 => absurd h0 hs⟩
    · simp [blockingLoop, hs] at hexit
  | cons q rest ih =>
    intro s hexit hquit
    by_cases hs : s.shownWindowCount ≠ 0
    · rw [blockingLoop_shown env s _ hs]
      exact ⟨hs, fun h0 => absurd h0 hs⟩
    · simp only [blockingLoop, if_neg hs] at hexit hquit ⊢
      cases q with
      | none => exact ih s hexit hquit
      | some msg =>
        simp only at hexit hquit ⊢
        by_cases hg : GetMessageW_nonzero msg = false
        · exfalso
          have hm : msg = Msg.WM_QUIT := by
            simpa [GetMessageW_nonzero] using hg
          simp only [if_pos hg, List.mem_singleton] at hquit
          exact hquit s.shownWindowCount (by rw [hm])
        · simp only [if_neg hg] at hexit hquit ⊢
          cases hw : MainWindowWndProc env s msg with
          | none => simp [hw] at hexit
          | some r =>
            obtain ⟨s1, evs⟩ := r
            simp only [hw] at hexit hquit ⊢
            by_cases hq : msg = Msg.WM_QUIT
            · simp [if_pos hq] at hexit
            · simp only [if_neg hq] at hexit hquit ⊢
              have hq1 : ∀ c, PumpStep.GetMessageW Msg.WM_QUIT c ∉ (blockingLoop env s1 rest).trace :=
                fun c hc => hquit c (List.mem_cons_of_mem _ hc)
              obtain ⟨hne, hex⟩ := ih s1 hexit hq1
              refine ⟨hne, fun _ => ?_⟩
              by_cases h1 : s1.shownWindowCount = 0
              · obtain ⟨x, hx, hxc⟩ := hex h1
                exact ⟨x, List.mem_cons_of_mem _ hx, hxc⟩
              · exact ⟨_, List.mem_cons_self _ _, h1⟩

/-- When `GetMessageW` never retrieves `WM_QUIT`, every run of `AppMain` keeps within
the render budget: none while hidden from the start, at most one per hidden stretch. -/
theorem AppMain_rendersWithin (env : Env) : ∀ (fuel : Nat) (s : App) (queue : List (Option Msg)),
    (∀ c, PumpStep.GetMessageW Msg.WM_QUIT c ∉ (AppMain env fuel s queue).trace) →
    RendersWithin (if s.shownWindowCount = 0 then 0 else 1) (AppMain env fuel s queue).trace := by
  intro fuel
  induction fuel with
  | zero => intro s queue _; simp [AppMain, RendersWithin]
  | succ fuel ih =>
    intro s queue hquit
    have hbn := blockingLoop_trace_nonrender env queue s
    simp only [AppMain] at hquit ⊢
    cases hb : (blockingLoop env s queue).exit with
    | gotoExit =>
      simp only [hb]
      simpa using RendersWithin_append_of_zero _ [] _ hbn trivial
    | blocked =>
      simp only [hb]
      simpa using RendersWithin_append_of_zero _ [] _ hbn trivial
    | assertFailed =>
      simp only [hb]
      simpa using RendersWithin_append_of_zero _ [] _ hbn trivial
    | fallThrough =>
      simp only [hb] at hquit ⊢
      have hpn := pollingLoop_trace_nonrender env (blockingLoop env s queue).rest
        (blockingLoop env s queue).app
      have hbpn : ∀ x ∈ (blockingLoop env s queue).trace ++
          (pollingLoop env (blockingLoop env s queue).app (blockingLoop env s queue).rest).trace,
          x.isRender = false := by
        intro x hx
        rcases List.mem_append.mp hx with hx | hx
        · exact hbn x hx
        · exact hpn x hx
      cases hp : (pollingLoop env (blockingLoop env s queue).app
          (blockingLoop env s queue).rest).exit with
      | gotoExit =>
        simp only [hp]
        simpa using RendersWithin_append_of_zero _ [] _ hbpn trivial
      | blocked =>
        simp only [hp]
        simpa using RendersWithin_append_of_zero _ [] _ hbpn trivial
      | assertFailed =>
        simp only [hp]
        simpa using RendersWithin_append_of_zero _ [] _ hbpn trivial
      | fallThrough =>
        simp only [hp] at hquit ⊢
        have hq1 : ∀ c, PumpStep.GetMessageW Msg.WM_QUIT c ∉ (blockingLoop env s queue).trace := by
          intro c hc
          exact hquit c (List.mem_append_left _ (List.mem_append_left _ hc))
        have hq2 : ∀ c, PumpStep.GetMessageW Msg.WM_QUIT c ∉
            (AppMain env fuel
              (pollingLoop env (blockingLoop env s queue).app (blockingLoop env s queue).rest).app
              (pollingLoop env (blockingLoop env s queue).app (blockingLoop env s queue).rest).rest).trace := by
          intro c hc
          exact hquit c (List.mem_append_right _ (List.mem_cons_of_mem _ hc))
        have hrest := ih _ _ hq2
        obtain ⟨hshown, hstep⟩ := blockingLoop_fallThrough env queue s hb hq1
        -- the render pass that closes the iteration, followed by the next iterations
        have htail : RendersWithin 1
            (PumpStep.MainRenderFrame
                (pollingLoop env (blockingLoop env s queue).app
                  (blockingLoop env s queue).rest).app.shownWindowCount ::
              (AppMain env fuel
                (pollingLoop env (blockingLoop env s queue).app (blockingLoop env s queue).rest).app
                (pollingLoop env (blockingLoop env s queue).app
                  (blockingLoop env s queue).rest).rest).trace) := by
          simp only [RendersWithin, PumpStep.count, PumpStep.isRender]
          by_cases hc : (pollingLoop env (blockingLoop env s queue).app
              (blockingLoop env s queue).rest).app.shownWindowCount = 0
          · rw [if_neg (not_not.mpr hc)]
            rw [if_pos hc] at hrest
            simpa using hrest
          · rw [if_pos hc]
            rw [if_neg hc] at hrest
            exact hrest
        have hpoll : RendersWithin 1
            ((pollingLoop env (blockingLoop env s queue).app (blockingLoop env s queue).rest).trace ++
              PumpStep.MainRenderFrame
                (pollingLoop env (blockingLoop env s queue).app
                  (blockingLoop env s queue).rest).app.shownWindowCount ::
              (AppMain env fuel
                (pollingLoop env (blockingLoop env s queue).app (blockingLoop env s queue).rest).app
                (pollingLoop env (blockingLoop env s queue).app
                  (blockingLoop env s queue).rest).rest).trace) :=
          RendersWithin_append_of_zero _ _ 1 hpn htail
        rw [List.append_assoc]
        by_cases hs : s.shownWindowCount = 0
        · rw [if_pos hs]
          exact RendersWithin_append_of_nonzero _ _ 0 hbn (hstep hs) hpoll
        · rw [if_neg hs]
          exact RendersWithin_append_of_zero _ _ 1 hbn hpoll

/-- C9 as stated fails: a minimize handled in the polling loop takes the count from 1
to 0 and the render pass that closes the iteration is still performed, at count zero. -/
theorem AppMain_renders_after_minimize :
    PumpStep.MainRenderFrame 0 ∈
      (AppMain sampleEnv 2 ⟨[], 1⟩ [some (Msg.WM_SIZE SIZE_MINIMIZED), none]).trace := by
  decide

/-- C9, amended: in every run of `AppMain` in which `GetMessageW` does not retrieve
`WM_QUIT`, any stretch of steps over which `shownWindowCount` is zero contains at most
one render pass (the one that closes the polling iteration in which the count reached
zero), and none at all when the stretch starts the run with the count at zero: the pump
then waits in `GetMessageW` until a notification makes the count non-zero. -/
theorem AppMain_render_while_hidden (env : Env) (fuel : Nat) (s : App)
    (queue : List (Option Msg))
    (hquit : ∀ c, PumpStep.GetMessageW Msg.WM_QUIT c ∉ (AppMain env fuel s queue).trace)
    (pre seg post : List PumpStep)
    (hsplit : (AppMain env fuel s queue).trace = pre ++ seg ++ post)
    (hzero : ∀ x ∈ seg, x.count = 0) :
    (seg.filter PumpStep.isRender).length ≤ 1 ∧
    (pre = [] → s.shownWindowCount = 0 → (seg.filter PumpStep.isRender).length = 0) := by
  have h := AppMain_rendersWithin env fuel s queue hquit
  rw [hsplit] at h
  constructor
  · refine RendersWithin_segment pre seg post _ ?_ h hzero
    by_cases hs : s.shownWindowCount = 0
    · rw [if_pos hs]; exact Nat.zero_le 1
    · rw [if_neg hs]
  · intro hpre hs
    subst hpre
    rw [if_pos hs] at h
    exact Nat.le_zero.mp (RendersWithin_leading seg post 0 h hzero)

/-- Witness for the amended C9: the window is minimized in the polling loop, one render
pass closes that iteration, and no further pass happens until the restore. -/
theorem AppMain_render_while_hidden_witness :
    (AppMain sampleEnv 3 ⟨[], 1⟩ hiddenQueue).trace =
      [PumpStep.PeekMessageW (Msg.WM_SIZE SIZE_MINIMIZED) 0, PumpStep.MainRenderFrame 0,
       PumpStep.GetMessageW Msg.WM_TIMER 0] ++
      [PumpStep.GetMessageW (Msg.WM_SIZE SIZE_RESTORED) 1, PumpStep.MainRenderFrame 1,
       PumpStep.MainRenderFrame 1] ∧
    (([PumpStep.PeekMessageW (Msg.WM_SIZE SIZE_MINIMIZED) 0, PumpStep.MainRenderFrame 0,
       PumpStep.GetMessageW Msg.WM_TIMER 0] : List PumpStep).filter PumpStep.isRender).length ≤ 1 := by
  have ht : (AppMain sampleEnv 3 ⟨[], 1⟩ hiddenQueue).trace =
      [] ++ [PumpStep.PeekMessageW (Msg.WM_SIZE SIZE_MINIMIZED) 0, PumpStep.MainRenderFrame 0,
       PumpStep.GetMessageW Msg.WM_TIMER 0] ++
      [PumpStep.GetMessageW (Msg.WM_SIZE SIZE_RESTORED) 1, PumpStep.MainRenderFrame 1,
       PumpStep.MainRenderFrame 1] := by decide
  have hquit : ∀ c, PumpStep.GetMessageW Msg.WM_QUIT c ∉
      (AppMain sampleEnv 3 ⟨[], 1⟩ hiddenQueue).trace := by
    intro c hc
    rw [ht] at hc
    simp at hc
  exact ⟨ht, (AppMain_render_while_hidden sampleEnv 3 ⟨[], 1⟩ hiddenQueue hquit [] _ _ ht
    (by decide)).1⟩

end WinXInputFeeder
